import Mathlib

/-!
Verification of the Arcjet decision engine (`src/arcjet/index.ts`).

The engine, its block cache and the `sensitiveInfo` rule constructor are
shallowly embedded as executable Lean functions.  Effectful operations
(logging, cache access, rule evaluation, the remote client) are made
explicit: the engine returns its decision together with the updated cache,
the rule array after in-place characteristic injection, and a trace of the
observable effects it performed, in program order.  Time is passed as a
parameter (`now`, epoch seconds) and the remote `client.decide` call is an
`Except` value describing its outcome on the request under consideration.
-/

namespace Arcjet

/-- Mode of a rule, `mode === "LIVE" ? "LIVE" : "DRY_RUN"` in the source. -/
inductive Mode
| LIVE
| DRY_RUN
deriving DecidableEq

/-- Conclusion of a rule result or decision. -/
inductive Conclusion
| ALLOW
| DENY
| CHALLENGE
| ERROR
deriving DecidableEq

/-- State of a rule result. -/
inductive RuleState
| NOT_RUN
| RUN
| CACHED
deriving DecidableEq

/-- Tagged reasons attached to rule results and decisions, following the
`ArcjetReason` class hierarchy of the protocol: the base class is `generic`,
`error` carries a message, and the rule-specific reasons carry their
structured evidence. -/
inductive Reason
| generic
| error (message : String)
| bot (allowed : List String) (denied : List String)
| email (emailTypes : List String)
| sensitiveInfo (allowed : List String) (denied : List String)
| shield
| rateLimit
deriving DecidableEq

/-- Result of one rule on one request, mirroring `ArcjetRuleResult`. -/
structure RuleResult where
  ttl : Int
  state : RuleState
  conclusion : Conclusion
  reason : Reason
deriving DecidableEq

/-- Decision of the engine, mirroring `ArcjetDecision` (the random `id`
field is omitted; decisions are compared up to it). -/
structure Decision where
  conclusion : Conclusion
  ttl : Int
  reason : Reason
  results : List RuleResult
deriving DecidableEq

/-- Outcome of running a rule's `validate` and `protect` pair on the fixed
request under consideration.  `notLocal` encodes a rule without the pair
(`isLocalRule` is false: RATE_LIMIT and SHIELD); the two `throws` cases
encode an exception raised by `validate` respectively by `protect`; and
`result` is the `ArcjetRuleResult` a successful `protect` call returns.
The analyzer is stateless, so the outcome of a given rule on a given
request is a fixed value. -/
inductive EvalOutcome
| notLocal
| validateThrows (err : String)
| protectThrows (err : String)
| result (r : RuleResult)
deriving DecidableEq

/-- Rule as the engine sees it: `type`, `priority` and `mode` as in
`ArcjetRule`, the rate-limit marker checked by `isRateLimitRule`, the
optional `characteristics` field of rate-limit rules, and the behaviour of
its `validate`/`protect` pair on the request under consideration. -/
structure Rule where
  type : String
  priority : Int
  mode : Mode
  isRateLimit : Bool
  characteristics : Option (List String)
  eval : EvalOutcome
deriving DecidableEq

/-- Default rule used for out-of-range heap lookups in the object store. -/
def defaultRule : Rule :=
  { type := "", priority := 0, mode := .DRY_RUN, isRateLimit := false,
    characteristics := none, eval := .notLocal }

/-- Lookup in a JS `Map` modelled as an association list with unique keys. -/
def mapGet {α : Type} (m : List (String × α)) (k : String) : Option α :=
  match m with
  | [] => none
  | (k0, v) :: rest => if k0 = k then some v else mapGet rest k

/-- Write to a JS `Map`: overwrite the entry for `k` if present, else append. -/
def mapSet {α : Type} (m : List (String × α)) (k : String) (v : α) :
    List (String × α) :=
  match m with
  | [] => [(k, v)]
  | (k0, v0) :: rest =>
      if k0 = k then (k, v) :: rest else (k0, v0) :: mapSet rest k v

/-- Delete from a JS `Map`. -/
def mapDelete {α : Type} (m : List (String × α)) (k : String) :
    List (String × α) :=
  match m with
  | [] => []
  | (k0, v0) :: rest =>
      if k0 = k then rest else (k0, v0) :: mapDelete rest k

/-- Block cache state: the `expires` map (fingerprint to epoch-second
expiry) and the `data` map (fingerprint to cached reason) of `class Cache`. -/
structure Cache where
  expires : List (String × Int)
  data : List (String × Reason)
deriving DecidableEq

/-- Method `Cache.ttl` in state-passing style: returns
`(this.expires.get(key) ?? now) - now` and the unchanged cache (the method
touches neither map). -/
def cacheTtlOp (c : Cache) (now : Int) (key : String) : Int × Cache :=
  (((mapGet c.expires key).getD now) - now, c)

/-- Method `Cache.get`: if the ttl is positive, return `data.get(key)` and
leave the cache alone; otherwise delete the key from both maps and return
nothing (lazy eviction). -/
def cacheGetOp (c : Cache) (now : Int) (key : String) :
    Option Reason × Cache :=
  if (cacheTtlOp c now key).1 > 0 then (mapGet c.data key, c)
  else (none, ⟨mapDelete c.expires key, mapDelete c.data key⟩)

/-- Method `Cache.set`: overwrite both maps. -/
def cacheSetOp (c : Cache) (key : String) (value : Reason)
    (expiresAt : Int) : Cache :=
  ⟨mapSet c.expires key expiresAt, mapSet c.data key value⟩

/-- Observable effects of one `protect` call, in program order. -/
inductive Effect
| warnNoRules
| errorTooManyRules
| cacheGet (fingerprint : String)
| cacheTtl (fingerprint : String)
| ruleValidate (idx : Nat) (type : String)
| ruleProtect (idx : Nat) (type : String)
| report (decision : Decision) (rules : List Rule)
| dryRunOverride (type : String)
| cacheSet (fingerprint : String) (reason : Reason) (expiresAt : Int)
| decideCall
deriving DecidableEq

/-- Input of one `protect` call that the adapter and environment fix:
the engine-level characteristics, the fingerprint computed by the analyzer,
the current time in epoch seconds, and the outcome that `client.decide`
would produce for this request (`Except` models a thrown error). -/
structure ProtectInput where
  characteristics : List String
  fingerprint : String
  now : Int
  decide : Except String Decision

/-- Everything one `protect` call produces: the decision returned to the
caller, the block cache afterwards, the rule array afterwards (rule objects
are mutated in place by characteristic injection), and the effect trace. -/
structure ProtectOutput where
  decision : Decision
  cache : Cache
  rules : List Rule
  trace : List Effect
deriving DecidableEq

/-- Default entry of the `results` vector:
`{ttl: 0, state: NOT_RUN, conclusion: ALLOW, reason: new ArcjetReason()}`. -/
def defaultResult : RuleResult :=
  { ttl := 0, state := .NOT_RUN, conclusion := .ALLOW, reason := .generic }

/-- Characteristic injection performed on each rule slot: a rate-limit rule
without its own characteristics receives the engine-level ones
(`rules[idx].characteristics = characteristics`). -/
def injectChars (chars : List String) (r : Rule) : Rule :=
  if r.isRateLimit && r.characteristics == none then
    { r with characteristics := some chars }
  else r

/-- Decision built when more than 10 rules are configured. -/
def tooManyDecision : Decision :=
  { conclusion := .ERROR, ttl := 0,
    reason := .error "Only 10 rules may be specified", results := [] }

/-- Result recorded for a local rule: the rule result `protect` returned,
or `{ttl: 0, state: RUN, conclusion: ERROR, reason: error(err)}` when
`validate` or `protect` threw.  Non-local rules leave their slot alone. -/
def localResult (r : Rule) : RuleResult :=
  match r.eval with
  | .notLocal => defaultResult
  | .validateThrows e => { ttl := 0, state := .RUN, conclusion := .ERROR, reason := .error e }
  | .protectThrows e => { ttl := 0, state := .RUN, conclusion := .ERROR, reason := .error e }
  | .result res => res

/-- True when a rule short-circuits the request: its evaluation produced a
DENY result and the rule is not in DRY_RUN mode. -/
def Rule.earlyDeny (r : Rule) : Bool :=
  (match r.eval with
   | .result res => res.conclusion == .DENY
   | _ => false) && r.mode != .DRY_RUN

/-- Remote phase of `protect`: call `client.decide`; on success cache a
DENY with positive ttl and return the remote decision; on failure build an
ERROR decision carrying the error and the accumulated results, report it,
and return it without re-raising. -/
def remotePhase (inp : ProtectInput) (allRules : List Rule)
    (results : List RuleResult) (cache : Cache) (trace : List Effect) :
    ProtectOutput :=
  match inp.decide with
  | .ok d =>
      if d.conclusion = .DENY ∧ d.ttl > 0 then
        { decision := d,
          cache := cacheSetOp cache inp.fingerprint d.reason (inp.now + d.ttl),
          rules := allRules,
          trace := trace ++ [.decideCall,
            .cacheSet inp.fingerprint d.reason (inp.now + d.ttl)] }
      else
        { decision := d, cache := cache, rules := allRules,
          trace := trace ++ [.decideCall] }
  | .error e =>
      let decision : Decision :=
        { conclusion := .ERROR, ttl := 0, reason := .error e, results := results }
      { decision := decision, cache := cache, rules := allRules,
        trace := trace ++ [.decideCall, .report decision allRules] }

/-- Local evaluation loop of `protect` over the indexed rule array.  For a
local rule, `validate` then `protect` run inside one try block; a throw
converts the slot to a RUN/ERROR result and moves on.  A DENY result is
reported; in LIVE mode a positive ttl populates the block cache and the
decision is returned, in DRY_RUN mode an override warning is logged and the
loop continues. -/
def runRules (inp : ProtectInput) (allRules : List Rule)
    (pending : List (Nat × Rule)) (results : List RuleResult)
    (cache : Cache) (trace : List Effect) : ProtectOutput :=
  match pending with
  | [] => remotePhase inp allRules results cache trace
  | (idx, rule) :: rest =>
      match rule.eval with
      | .notLocal => runRules inp allRules rest results cache trace
      | .validateThrows _ =>
          runRules inp allRules rest (results.set idx (localResult rule)) cache
            (trace ++ [.ruleValidate idx rule.type])
      | .protectThrows _ =>
          runRules inp allRules rest (results.set idx (localResult rule)) cache
            (trace ++ [.ruleValidate idx rule.type, .ruleProtect idx rule.type])
      | .result res =>
          let results1 := results.set idx res
          let trace1 := trace ++ [.ruleValidate idx rule.type, .ruleProtect idx rule.type]
          if res.conclusion = .DENY then
            let decision : Decision :=
              { conclusion := .DENY, ttl := res.ttl, reason := res.reason,
                results := results1 }
            let trace2 := trace1 ++ [.report decision allRules]
            if rule.mode ≠ .DRY_RUN then
              if res.ttl > 0 then
                { decision := decision,
                  cache := cacheSetOp cache inp.fingerprint res.reason (inp.now + res.ttl),
                  rules := allRules,
                  trace := trace2 ++ [.cacheSet inp.fingerprint res.reason (inp.now + res.ttl)] }
              else
                { decision := decision, cache := cache, rules := allRules,
                  trace := trace2 }
            else
              runRules inp allRules rest results1 cache
                (trace2 ++ [.dryRunOverride rule.type])
          else
            runRules inp allRules rest results1 cache trace1

/-- Engine `protect` on an already sorted rule array (the sort happens at
construction and in `withRule`): deprecation warning for an empty rule
list, the 10-rule limit, characteristic injection, the block-cache check,
the local evaluation loop and the remote phase, in source order. -/
def protect (inp : ProtectInput) (rules : List Rule) (cache : Cache) :
    ProtectOutput :=
  let trace0 : List Effect := if rules.length < 1 then [.warnNoRules] else []
  if rules.length > 10 then
    { decision := tooManyDecision, cache := cache, rules := rules,
      trace := trace0 ++ [.errorTooManyRules, .report tooManyDecision []] }
  else
    let rules1 := rules.map (injectChars inp.characteristics)
    let results0 : List RuleResult := List.replicate rules.length defaultResult
    let got := cacheGetOp cache inp.now inp.fingerprint
    match got.1 with
    | some r =>
        let decision : Decision :=
          { conclusion := .DENY,
            ttl := (cacheTtlOp got.2 inp.now inp.fingerprint).1,
            reason := r, results := results0 }
        { decision := decision, cache := got.2, rules := rules1,
          trace := trace0 ++ [.cacheGet inp.fingerprint,
            .cacheTtl inp.fingerprint, .report decision rules1] }
    | none =>
        runRules inp rules1 rules1.enum results0 got.2
          (trace0 ++ [.cacheGet inp.fingerprint])

/-- Ordering used by `rules.sort((a, b) => a.priority - b.priority)`. -/
def ruleLE (a b : Rule) : Prop := a.priority ≤ b.priority

instance : DecidableRel ruleLE := fun a b => Int.decLe a.priority b.priority

instance : IsTotal Rule ruleLE := ⟨fun a b => Int.le_total a.priority b.priority⟩

instance : IsTrans Rule ruleLE := ⟨fun _ _ _ hab hbc => le_trans hab hbc⟩

/-- Stable ascending sort by priority, as performed on `rootRules` at
construction and on the concatenated list in `withRule` (JS `Array.sort`
is stable). -/
def sortRules (rules : List Rule) : List Rule := List.insertionSort ruleLE rules

/-- Engine constructed from a flat rule list: `protect` runs on the rules
sorted by priority. -/
def engineProtect (inp : ProtectInput) (cache : Cache) (rules : List Rule) :
    ProtectOutput :=
  protect inp (sortRules rules) cache

/-- Strict priority order on rules. -/
def rulePriorityLT (a b : Rule) : Prop := a.priority < b.priority

theorem sortRules_perm (l : List Rule) : (sortRules l).Perm l :=
  List.perm_insertionSort ruleLE l

theorem sortRules_sorted (l : List Rule) : List.Sorted ruleLE (sortRules l) :=
  List.sorted_insertionSort ruleLE l

theorem sortRules_sorted_lt (l : List Rule)
    (hl : (l.map Rule.priority).Nodup) :
    List.Sorted rulePriorityLT (sortRules l) := by
  have h1 : List.Sorted ruleLE (sortRules l) := sortRules_sorted l
  have h2 : ((sortRules l).map Rule.priority).Nodup :=
    (List.Perm.map Rule.priority (sortRules_perm l)).symm.nodup hl
  have h3 : (sortRules l).Pairwise (fun a b => a.priority ≠ b.priority) :=
    List.pairwise_map.mp h2
  exact (List.Pairwise.and h1 h3).imp fun h => lt_of_le_of_ne h.1 h.2

/-- Two permutation-equal lists with pairwise distinct priorities have the
same stable sort. -/
theorem sortRules_eq_of_perm (R P : List Rule) (hp : P.Perm R)
    (hn : (R.map Rule.priority).Nodup) : sortRules P = sortRules R := by
  haveI : IsAntisymm Rule rulePriorityLT :=
    ⟨fun _ _ h1 h2 => absurd (lt_trans h1 h2) (lt_irrefl _)⟩
  have hnP : (P.map Rule.priority).Nodup :=
    (List.Perm.map Rule.priority hp).symm.nodup hn
  exact List.eq_of_perm_of_sorted
    (((sortRules_perm P).trans hp).trans (sortRules_perm R).symm)
    (sortRules_sorted_lt P hnP) (sortRules_sorted_lt R hn)

/-- Cache state with an entry for `"f"` that expired at epoch second 5. -/
def expiredCache : Cache := ⟨[("f", 5)], [("f", Reason.generic)]⟩

/-- Claim C1, counterexample: at time 10, `ttl("f")` on a cache whose entry
for `"f"` expired at time 5 returns −5, a negative number, and in
particular not `max(0, expiry − now) = 0`: the source returns
`(expires.get(key) ?? now) - now` without clamping. -/
theorem ttl_can_be_negative :
    (cacheTtlOp expiredCache 10 "f").1 = -5 ∧
    (cacheTtlOp expiredCache 10 "f").1 < 0 ∧
    (cacheTtlOp expiredCache 10 "f").1 ≠ max 0 (5 - 10) := by decide

/-- Claim C1 (amended): `ttl(k)` performs no eviction (the cache is
returned unchanged), returns 0 when no entry for `k` exists, and returns
`expiry − now` when an entry exists — a value that is negative once the
entry has expired, rather than `max(0, expiry − now)`. -/
theorem ttl_spec_amended (c : Cache) (now : Int) (k : String) :
    (cacheTtlOp c now k).2 = c ∧
    (mapGet c.expires k = none → (cacheTtlOp c now k).1 = 0) ∧
    (∀ e, mapGet c.expires k = some e → (cacheTtlOp c now k).1 = e - now) := by
  refine ⟨rfl, fun h => ?_, fun e h => ?_⟩ <;> simp [cacheTtlOp, h]

/-- Claim C1 witness: the amended specification applied to a live entry
(expiry 200, now 100) and to a key with no entry. -/
theorem ttl_spec_amended_witness :
    (cacheTtlOp expiredCache 100 "f").1 = 5 - 100 ∧
    (cacheTtlOp expiredCache 100 "g").1 = 0 := by
  refine ⟨(ttl_spec_amended expiredCache 100 "f").2.2 5 rfl, ?_⟩
  exact (ttl_spec_amended expiredCache 100 "g").2.1 rfl

/-- Local LIVE bot rule denying with evidence `CURL`. -/
def botRuleX : Rule :=
  { type := "BOT", priority := 4, mode := .LIVE, isRateLimit := false,
    characteristics := none,
    eval := .result { ttl := 60, state := .RUN, conclusion := .DENY,
                      reason := .bot [] ["CURL"] } }

/-- Local LIVE bot rule denying with evidence `GPTBOT`. -/
def botRuleY : Rule :=
  { type := "BOT", priority := 4, mode := .LIVE, isRateLimit := false,
    characteristics := none,
    eval := .result { ttl := 60, state := .RUN, conclusion := .DENY,
                      reason := .bot [] ["GPTBOT"] } }

/-- Remote decision used as a stub `client.decide` success. -/
def allowDecision : Decision :=
  { conclusion := .ALLOW, ttl := 0, reason := .generic, results := [] }

/-- Request input shared by the concrete scenarios: no engine
characteristics, fingerprint `"fp"`, time 100, remote decide allows. -/
def inpC2 : ProtectInput :=
  { characteristics := [], fingerprint := "fp", now := 100,
    decide := .ok allowDecision }

/-- Empty block cache. -/
def cache0 : Cache := ⟨[], []⟩

/-- Claim C2, counterexample: two LIVE bot rules share priority 4 but deny
with different reasons.  The stable sort keeps the declaration order of the
tie, so the first-listed rule short-circuits: the two orders of the same
rule set produce different DENY decisions, refuting order-independence for
equal priorities. -/
theorem protect_order_dependent_on_equal_priority :
    (engineProtect inpC2 cache0 [botRuleX, botRuleY]).decision ≠
      (engineProtect inpC2 cache0 [botRuleY, botRuleX]).decision ∧
    ([botRuleY, botRuleX] : List Rule).Perm [botRuleX, botRuleY] := by decide

/-- Claim C2 (amended): when all priorities in the rule set are pairwise
distinct, every permutation of the rule set yields the same `protect`
outcome; with ties, permuting the tied rules can change the decision
because the stable sort preserves the given order of equal priorities. -/
theorem protect_perm_invariant_of_distinct_priorities
    (inp : ProtectInput) (cache : Cache) (R P : List Rule)
    (hp : P.Perm R) (hn : (R.map Rule.priority).Nodup) :
    engineProtect inp cache P = engineProtect inp cache R := by
  unfold engineProtect
  rw [sortRules_eq_of_perm R P hp hn]

/-- Local LIVE email rule with priority 5 denying the request. -/
def emailRuleZ : Rule :=
  { type := "EMAIL", priority := 5, mode := .LIVE, isRateLimit := false,
    characteristics := none,
    eval := .result { ttl := 0, state := .RUN, conclusion := .DENY,
                      reason := .email ["INVALID"] } }

/-- Claim C2 witness: a bot rule (priority 4) and an email rule
(priority 5) given in either order produce the same output. -/
theorem protect_perm_invariant_witness :
    ([emailRuleZ, botRuleX] : List Rule).Perm [botRuleX, emailRuleZ] ∧
    engineProtect inpC2 cache0 [emailRuleZ, botRuleX] =
      engineProtect inpC2 cache0 [botRuleX, emailRuleZ] :=
  ⟨by decide,
   protect_perm_invariant_of_distinct_priorities inpC2 cache0
     [botRuleX, emailRuleZ] [emailRuleZ, botRuleX] (by decide) (by decide)⟩

/-- Cache holding a live block (expiry 200) for fingerprint `"fp"` with a
shield reason. -/
def cacheLive : Cache := ⟨[("fp", 200)], [("fp", Reason.shield)]⟩

/-- Unfolds `protect` on a cache miss: after the warning and the 10-rule
check, the cache is consulted and, finding nothing, evaluation proceeds to
the local rule loop with the injected rules, the default results and the
possibly evicted cache. -/
theorem protect_cache_miss (inp : ProtectInput) (rules : List Rule)
    (cache : Cache) (hlen : rules.length ≤ 10)
    (hmiss : (cacheGetOp cache inp.now inp.fingerprint).1 = none) :
    protect inp rules cache =
      runRules inp (rules.map (injectChars inp.characteristics))
        (rules.map (injectChars inp.characteristics)).enum
        (List.replicate rules.length defaultResult)
        (cacheGetOp cache inp.now inp.fingerprint).2
        ((if rules.length < 1 then [Effect.warnNoRules] else []) ++
          [Effect.cacheGet inp.fingerprint]) := by
  have h10 : ¬ rules.length > 10 := by omega
  simp only [protect, h10, if_false]
  rw [hmiss]

/-- Claim C3, counterexample: with an empty rule list and a live cached
block for the fingerprint, `protect` does consult the block cache (a `get`
is performed whatever the rule count), returns the cached DENY rather than
the remote decision, and never calls `client.decide`. -/
theorem protect_empty_rules_consults_cache :
    Effect.cacheGet "fp" ∈ (protect inpC2 [] cacheLive).trace ∧
    (protect inpC2 [] cacheLive).decision ≠ allowDecision ∧
    Effect.decideCall ∉ (protect inpC2 [] cacheLive).trace := by decide

/-- Claim C3 (amended): with an empty rule list, `protect` logs the
deprecation warning and consults the block cache; when the cache holds no
live block for the fingerprint, it calls `client.decide` and returns the
decision that call produced. -/
theorem protect_empty_rules_amended (inp : ProtectInput) (cache : Cache)
    (d : Decision)
    (hmiss : (cacheGetOp cache inp.now inp.fingerprint).1 = none)
    (hdec : inp.decide = .ok d) :
    (protect inp [] cache).decision = d ∧
    Effect.warnNoRules ∈ (protect inp [] cache).trace ∧
    Effect.cacheGet inp.fingerprint ∈ (protect inp [] cache).trace ∧
    Effect.decideCall ∈ (protect inp [] cache).trace := by
  have heq := protect_cache_miss inp [] cache (by simp) hmiss
  rw [heq]
  simp only [List.map_nil, List.enum_nil, runRules, remotePhase, hdec]
  by_cases h : d.conclusion = Conclusion.DENY ∧ d.ttl > 0 <;> simp [h]

/-- Claim C3 witness: the amended behaviour at the concrete scenario with
an empty cache. -/
theorem protect_empty_rules_amended_witness :
    (protect inpC2 [] cache0).decision = allowDecision ∧
    Effect.warnNoRules ∈ (protect inpC2 [] cache0).trace ∧
    Effect.cacheGet "fp" ∈ (protect inpC2 [] cache0).trace ∧
    Effect.decideCall ∈ (protect inpC2 [] cache0).trace :=
  protect_empty_rules_amended inpC2 cache0 allowDecision (by decide) rfl

/-- Claim C4: a DRY_RUN rule whose evaluation produced a DENY result does
not end the request: the result is recorded, the intermediate DENY decision
is reported to `client.report` with the full rule list, the block cache is
left untouched, the override warning is logged, and the loop continues with
the next rule — so the final decision is whatever the remaining evaluation
produces, never this rule's DENY. -/
theorem dry_run_deny_overridden (inp : ProtectInput) (allRules : List Rule)
    (idx : Nat) (rule : Rule) (rest : List (Nat × Rule))
    (results : List RuleResult) (cache : Cache) (trace : List Effect)
    (res : RuleResult) (hmode : rule.mode = .DRY_RUN)
    (heval : rule.eval = .result res) (hdeny : res.conclusion = .DENY) :
    runRules inp allRules ((idx, rule) :: rest) results cache trace =
      runRules inp allRules rest (results.set idx res) cache
        (trace ++ [.ruleValidate idx rule.type, .ruleProtect idx rule.type,
          .report { conclusion := .DENY, ttl := res.ttl, reason := res.reason,
                    results := results.set idx res } allRules,
          .dryRunOverride rule.type]) := by
  simp [runRules, heval, hdeny, hmode]

/-- Local DRY_RUN email rule denying the request. -/
def dryDenyRule : Rule :=
  { type := "EMAIL", priority := 5, mode := .DRY_RUN, isRateLimit := false,
    characteristics := none,
    eval := .result { ttl := 0, state := .RUN, conclusion := .DENY,
                      reason := .email ["INVALID"] } }

/-- Claim C4 witness: the override step at a concrete DRY_RUN deny. -/
theorem dry_run_deny_overridden_witness :
    runRules inpC2 [dryDenyRule] [(0, dryDenyRule)] [defaultResult] cache0 [] =
      runRules inpC2 [dryDenyRule] []
        ([defaultResult].set 0
          { ttl := 0, state := .RUN, conclusion := .DENY,
            reason := .email ["INVALID"] }) cache0
        ([] ++ [.ruleValidate 0 dryDenyRule.type, .ruleProtect 0 dryDenyRule.type,
          .report { conclusion := .DENY, ttl := 0, reason := .email ["INVALID"],
                    results := [defaultResult].set 0
                      { ttl := 0, state := .RUN, conclusion := .DENY,
                        reason := .email ["INVALID"] } } [dryDenyRule],
          .dryRunOverride dryDenyRule.type]) :=
  dry_run_deny_overridden inpC2 [dryDenyRule] 0 dryDenyRule [] [defaultResult]
    cache0 []
    { ttl := 0, state := .RUN, conclusion := .DENY, reason := .email ["INVALID"] }
    rfl rfl rfl

/-- Effects emitted by a local rule whose `validate` or `protect` throws:
the `validate` call always happens; the `protect` call only happens when
`validate` returned. -/
def throwEffects (idx : Nat) (rule : Rule) : List Effect :=
  match rule.eval with
  | .validateThrows _ => [.ruleValidate idx rule.type]
  | .protectThrows _ =>
      [.ruleValidate idx rule.type, .ruleProtect idx rule.type]
  | _ => []

/-- Claim C9: when a local rule's `validate` or `protect` throws, that
rule's entry in `results` becomes `{state: RUN, conclusion: ERROR}` with a
reason carrying the error, the cache and all other entries are untouched,
and the loop continues with the remaining rules exactly as before. -/
theorem local_rule_throw_recovered (inp : ProtectInput) (allRules : List Rule)
    (idx : Nat) (rule : Rule) (rest : List (Nat × Rule))
    (results : List RuleResult) (cache : Cache) (trace : List Effect)
    (e : String)
    (h : rule.eval = .validateThrows e ∨ rule.eval = .protectThrows e) :
    runRules inp allRules ((idx, rule) :: rest) results cache trace =
      runRules inp allRules rest
        (results.set idx
          { ttl := 0, state := .RUN, conclusion := .ERROR, reason := .error e })
        cache (trace ++ throwEffects idx rule) := by
  rcases h with h | h <;> simp [runRules, throwEffects, localResult, h]

/-- Local bot rule whose `validate` throws (missing user-agent header). -/
def throwingRule : Rule :=
  { type := "BOT", priority := 4, mode := .LIVE, isRateLimit := false,
    characteristics := none,
    eval := .validateThrows "bot detection requires user-agent header" }

/-- Claim C9 witness: the recovery step at a concrete throwing rule. -/
theorem local_rule_throw_recovered_witness :
    runRules inpC2 [throwingRule, botRuleX]
        [(0, throwingRule), (1, botRuleX)]
        [defaultResult, defaultResult] cache0 [] =
      runRules inpC2 [throwingRule, botRuleX] [(1, botRuleX)]
        ([defaultResult, defaultResult].set 0
          { ttl := 0, state := .RUN, conclusion := .ERROR,
            reason := .error "bot detection requires user-agent header" })
        cache0 ([] ++ throwEffects 0 throwingRule) :=
  local_rule_throw_recovered inpC2 [throwingRule, botRuleX] 0 throwingRule
    [(1, botRuleX)] [defaultResult, defaultResult] cache0 []
    "bot detection requires user-agent header" (Or.inl rfl)

/-- Claim C5: with more than 10 rules, `protect` returns an ERROR decision
whose reason message is `"Only 10 rules may be specified"` and whose
results list is empty, reports it to `client.report` with an empty rule
list, and stops before consulting the cache or evaluating any rule (no
`validate` or `protect` of any rule is invoked, and no remote call is
made). -/
theorem too_many_rules_error (inp : ProtectInput) (rules : List Rule)
    (cache : Cache) (h : rules.length > 10) :
    protect inp rules cache =
      { decision := tooManyDecision, cache := cache, rules := rules,
        trace := [.errorTooManyRules, .report tooManyDecision []] } ∧
    (∀ i t, Effect.ruleValidate i t ∉ (protect inp rules cache).trace) ∧
    (∀ i t, Effect.ruleProtect i t ∉ (protect inp rules cache).trace) ∧
    Effect.decideCall ∉ (protect inp rules cache).trace := by
  have h1 : ¬ rules.length < 1 := by omega
  have heq : protect inp rules cache =
      { decision := tooManyDecision, cache := cache, rules := rules,
        trace := [.errorTooManyRules, .report tooManyDecision []] } := by
    simp [protect, h, h1]
  refine ⟨heq, ?_, ?_, ?_⟩ <;> simp [heq]

/-- Shield rule (remote-only, no `validate`/`protect` pair). -/
def shieldRuleC : Rule :=
  { type := "SHIELD", priority := 2, mode := .DRY_RUN, isRateLimit := false,
    characteristics := none, eval := .notLocal }

/-- Eleven rules, one more than the engine accepts. -/
def elevenRules : List Rule := List.replicate 11 shieldRuleC

/-- Claim C5 witness: the ERROR decision at a concrete 11-rule list. -/
theorem too_many_rules_error_witness :
    protect inpC2 elevenRules cache0 =
      { decision := tooManyDecision, cache := cache0, rules := elevenRules,
        trace := [.errorTooManyRules, .report tooManyDecision []] } :=
  (too_many_rules_error inpC2 elevenRules cache0 (by decide)).1

/-- Claim C6: when the block cache holds a live entry for the fingerprint
(expiry strictly in the future) and between 1 and 10 rules are configured,
`protect` returns a DENY decision whose ttl equals `blockCache.ttl(f)` and
whose reason is the cached reason, with every result entry NOT_RUN; the
decision is reported to `client.report`, and no rule's `validate` or
`protect` is invoked. -/
theorem cached_block_short_circuit (inp : ProtectInput) (rules : List Rule)
    (cache : Cache) (e : Int) (r : Reason)
    (h1 : 1 ≤ rules.length) (h2 : rules.length ≤ 10)
    (he : mapGet cache.expires inp.fingerprint = some e)
    (hlive : inp.now < e)
    (hr : mapGet cache.data inp.fingerprint = some r) :
    protect inp rules cache =
      ⟨⟨.DENY, e - inp.now, r, List.replicate rules.length defaultResult⟩,
       cache, rules.map (injectChars inp.characteristics),
       [.cacheGet inp.fingerprint, .cacheTtl inp.fingerprint,
        .report ⟨.DENY, e - inp.now, r, List.replicate rules.length defaultResult⟩
          (rules.map (injectChars inp.characteristics))]⟩ ∧
    e - inp.now = (cacheTtlOp cache inp.now inp.fingerprint).1 ∧
    (∀ res ∈ (protect inp rules cache).decision.results,
      res.state = RuleState.NOT_RUN) ∧
    (∀ i t, Effect.ruleValidate i t ∉ (protect inp rules cache).trace) ∧
    (∀ i t, Effect.ruleProtect i t ∉ (protect inp rules cache).trace) := by
  have h10 : ¬ rules.length > 10 := by omega
  have h01 : ¬ rules.length < 1 := by omega
  have httl : (cacheTtlOp cache inp.now inp.fingerprint).1 = e - inp.now := by
    simp [cacheTtlOp, he]
  have hpos : (cacheTtlOp cache inp.now inp.fingerprint).1 > 0 := by omega
  have hget : cacheGetOp cache inp.now inp.fingerprint = (some r, cache) := by
    simp only [cacheGetOp, if_pos hpos, hr]
  have heq : protect inp rules cache =
      ⟨⟨.DENY, e - inp.now, r, List.replicate rules.length defaultResult⟩,
       cache, rules.map (injectChars inp.characteristics),
       [.cacheGet inp.fingerprint, .cacheTtl inp.fingerprint,
        .report ⟨.DENY, e - inp.now, r, List.replicate rules.length defaultResult⟩
          (rules.map (injectChars inp.characteristics))]⟩ := by
    simp only [protect, h10, if_false, h01, hget]
    simp [cacheTtlOp, he]
  refine ⟨heq, httl.symm, ?_, ?_, ?_⟩
  · intro res hres
    rw [heq] at hres
    simp only at hres
    exact (List.eq_of_mem_replicate hres) ▸ rfl
  · intro i t
    simp [heq]
  · intro i t
    simp [heq]

/-- Claim C6 witness: the cached-block short-circuit at the concrete
scenario (one shield rule, live block with expiry 200, time 100). -/
theorem cached_block_short_circuit_witness :
    protect inpC2 [shieldRuleC] cacheLive =
      ⟨⟨.DENY, 200 - 100, Reason.shield,
        List.replicate (List.length [shieldRuleC]) defaultResult⟩,
       cacheLive, [shieldRuleC].map (injectChars inpC2.characteristics),
       [.cacheGet inpC2.fingerprint, .cacheTtl inpC2.fingerprint,
        .report ⟨.DENY, 200 - 100, Reason.shield,
            List.replicate (List.length [shieldRuleC]) defaultResult⟩
          ([shieldRuleC].map (injectChars inpC2.characteristics))]⟩ :=
  (cached_block_short_circuit inpC2 [shieldRuleC] cacheLive 200 Reason.shield
    (by decide) (by decide) rfl (by decide) rfl).1

/-- Update performed on the `results` vector by one iteration of the local
evaluation loop: non-local rules leave their slot alone, local rules store
their result (or the ERROR conversion of a throw). -/
def applyLocal (acc : List RuleResult) (p : Nat × Rule) : List RuleResult :=
  match p.2.eval with
  | .notLocal => acc
  | _ => acc.set p.1 (localResult p.2)

/-- Characteristic injection touches only the `characteristics` field, so
it changes neither a rule's evaluation behaviour nor its mode. -/
theorem injectChars_preserves (chars : List String) (r : Rule) :
    (injectChars chars r).eval = r.eval ∧
    (injectChars chars r).mode = r.mode ∧
    (injectChars chars r).type = r.type := by
  unfold injectChars
  split <;> exact ⟨rfl, rfl, rfl⟩

theorem injectChars_earlyDeny (chars : List String) (r : Rule) :
    (injectChars chars r).earlyDeny = r.earlyDeny := by
  unfold injectChars
  split <;> rfl

/-- Runs of the local loop in which no rule produces a LIVE DENY reach the
remote phase with the folded results and an unchanged cache. -/
theorem runRules_no_early_deny (inp : ProtectInput) (allRules : List Rule)
    (pending : List (Nat × Rule)) (results : List RuleResult)
    (cache : Cache) (trace : List Effect)
    (h : ∀ p ∈ pending, p.2.earlyDeny = false) :
    ∃ tr, runRules inp allRules pending results cache trace =
      remotePhase inp allRules (pending.foldl applyLocal results) cache
        (trace ++ tr) := by
  induction pending generalizing results trace with
  | nil => exact ⟨[], by simp [runRules]⟩
  | cons p rest ih =>
    obtain ⟨idx, rule⟩ := p
    have hrest : ∀ q ∈ rest, q.2.earlyDeny = false := fun q hq =>
      h q (List.mem_cons_of_mem _ hq)
    have hself : rule.earlyDeny = false := h (idx, rule) (List.mem_cons_self _ _)
    cases hev : rule.eval with
    | notLocal =>
        obtain ⟨tr, htr⟩ := ih results trace hrest
        exact ⟨tr, by simpa [runRules, hev, applyLocal] using htr⟩
    | validateThrows e =>
        obtain ⟨tr, htr⟩ := ih (results.set idx (localResult rule))
          (trace ++ [.ruleValidate idx rule.type]) hrest
        refine ⟨[.ruleValidate idx rule.type] ++ tr, ?_⟩
        simpa [runRules, hev, applyLocal, List.append_assoc] using htr
    | protectThrows e =>
        obtain ⟨tr, htr⟩ := ih (results.set idx (localResult rule))
          (trace ++ [.ruleValidate idx rule.type, .ruleProtect idx rule.type])
          hrest
        refine ⟨[.ruleValidate idx rule.type, .ruleProtect idx rule.type] ++ tr, ?_⟩
        simpa [runRules, hev, applyLocal, List.append_assoc] using htr
    | result res =>
        by_cases hden : res.conclusion = .DENY
        · have hmode : rule.mode = .DRY_RUN := by
            unfold Rule.earlyDeny at hself
            rw [hev] at hself
            simp [hden] at hself
            rcases hmode : rule.mode with _ | _
            · rw [hmode] at hself
              simp at hself
            · rfl
          obtain ⟨tr, htr⟩ := ih (results.set idx res)
            (trace ++ [.ruleValidate idx rule.type, .ruleProtect idx rule.type,
              .report ⟨.DENY, res.ttl, res.reason, results.set idx res⟩ allRules,
              .dryRunOverride rule.type]) hrest
          refine ⟨[.ruleValidate idx rule.type, .ruleProtect idx rule.type,
            .report ⟨.DENY, res.ttl, res.reason, results.set idx res⟩ allRules,
            .dryRunOverride rule.type] ++ tr, ?_⟩
          rw [dry_run_deny_overridden inp allRules idx rule rest results cache
            trace res hmode hev hden]
          simpa [applyLocal, hev, localResult, List.append_assoc] using htr
        · obtain ⟨tr, htr⟩ := ih (results.set idx res)
            (trace ++ [.ruleValidate idx rule.type, .ruleProtect idx rule.type])
            hrest
          refine ⟨[.ruleValidate idx rule.type, .ruleProtect idx rule.type] ++ tr, ?_⟩
          simpa [runRules, hev, hden, applyLocal, localResult,
            List.append_assoc] using htr

/-- Results vector accumulated by the local evaluation loop on a request
that neither hits the cache nor short-circuits: the fold of the per-rule
updates over the injected, indexed rule array, starting from the all
NOT_RUN defaults. -/
def localResultsFor (chars : List String) (rules : List Rule) :
    List RuleResult :=
  ((rules.map (injectChars chars)).enum).foldl applyLocal
    (List.replicate rules.length defaultResult)

/-- Claim C7: when `client.decide` throws and no local rule produced a LIVE
DENY, `protect` returns an ERROR decision carrying the error and the
results vector accumulated from local evaluation, reports that decision,
and raises nothing (the engine always returns a decision). -/
theorem decide_failure_fail_open (inp : ProtectInput) (rules : List Rule)
    (cache : Cache) (err : String)
    (hlen : rules.length ≤ 10)
    (hmiss : (cacheGetOp cache inp.now inp.fingerprint).1 = none)
    (hnd : ∀ r ∈ rules, r.earlyDeny = false)
    (hdec : inp.decide = .error err) :
    (protect inp rules cache).decision =
      ⟨.ERROR, 0, .error err, localResultsFor inp.characteristics rules⟩ ∧
    Effect.report (protect inp rules cache).decision
        (rules.map (injectChars inp.characteristics)) ∈
      (protect inp rules cache).trace := by
  have hpend : ∀ p ∈ (rules.map (injectChars inp.characteristics)).enum,
      p.2.earlyDeny = false := by
    intro p hp
    obtain ⟨hlt, hp2⟩ := List.mem_enum hp
    have hmem : p.2 ∈ rules.map (injectChars inp.characteristics) := by
      rw [hp2]
      exact List.getElem_mem hlt
    obtain ⟨r, hr, hrp⟩ := List.mem_map.mp hmem
    rw [← hrp, injectChars_earlyDeny]
    exact hnd r hr
  obtain ⟨tr, htr⟩ := runRules_no_early_deny inp
    (rules.map (injectChars inp.characteristics))
    (rules.map (injectChars inp.characteristics)).enum
    (List.replicate rules.length defaultResult)
    (cacheGetOp cache inp.now inp.fingerprint).2
    ((if rules.length < 1 then [Effect.warnNoRules] else []) ++
      [Effect.cacheGet inp.fingerprint]) hpend
  have heq := protect_cache_miss inp rules cache hlen hmiss
  rw [heq, htr]
  simp [remotePhase, hdec, localResultsFor]

/-- Local email rule that allows the request. -/
def emailAllowRule : Rule :=
  { type := "EMAIL", priority := 5, mode := .LIVE, isRateLimit := false,
    characteristics := none,
    eval := .result { ttl := 0, state := .RUN, conclusion := .ALLOW,
                      reason := .email [] } }

/-- Request input whose remote decide call throws `"boom"`. -/
def inpC7 : ProtectInput :=
  { characteristics := [], fingerprint := "fp", now := 100,
    decide := .error "boom" }

/-- Claim C7 witness: the fail-open ERROR decision at a concrete request
with one allowing local rule and a throwing remote client. -/
theorem decide_failure_fail_open_witness :
    (protect inpC7 [emailAllowRule] cache0).decision =
      ⟨.ERROR, 0, .error "boom",
        localResultsFor inpC7.characteristics [emailAllowRule]⟩ ∧
    Effect.report (protect inpC7 [emailAllowRule] cache0).decision
        ([emailAllowRule].map (injectChars inpC7.characteristics)) ∈
      (protect inpC7 [emailAllowRule] cache0).trace :=
  decide_failure_fail_open inpC7 [emailAllowRule] cache0 "boom"
    (by decide) (by decide) (by decide) rfl

/-- Heap of rule objects.  JS arrays hold references: `withRule` copies the
references (`[...baseRules, ...rule]`) while the objects stay shared, so an
engine view is a list of object ids into this store. -/
structure EngineStore where
  objs : List Rule
deriving DecidableEq

/-- Engine view: the sorted list of rule-object references an engine holds. -/
structure EngineView where
  ids : List Nat
deriving DecidableEq

/-- Dereference an object id. -/
def objAt (objs : List Rule) (i : Nat) : Rule := objs.getD i defaultRule

/-- Priority comparison lifted to object ids. -/
def idLE (objs : List Rule) (i j : Nat) : Prop :=
  ruleLE (objAt objs i) (objAt objs j)

instance (objs : List Rule) : DecidableRel (idLE objs) :=
  fun _ _ => Int.decLe _ _

/-- Stable sort of references by the priority of the referenced objects. -/
def sortIds (objs : List Rule) (ids : List Nat) : List Nat :=
  List.insertionSort (idLE objs) ids

/-- Rule list an engine view observes. -/
def viewRules (s : EngineStore) (v : EngineView) : List Rule :=
  v.ids.map (objAt s.objs)

/-- `withRule`: append the new rule objects to the heap (fresh references)
and build a view over `parent.rules ++ newRules` re-sorted by priority. -/
def withRuleStore (s : EngineStore) (parent : EngineView)
    (newRules : List Rule) : EngineStore × EngineView :=
  (⟨s.objs ++ newRules⟩,
   ⟨sortIds (s.objs ++ newRules)
     (parent.ids ++ List.range' s.objs.length newRules.length)⟩)

/-- In-place mutation of the heap performed by the characteristic-injection
loop of `protect` (`candidate_rule.characteristics = characteristics;
rules[idx] = candidate_rule` writes through the shared reference). -/
def updateObjs (chars : List String) (ids : List Nat) (objs : List Rule) :
    List Rule :=
  ids.foldl (fun acc i => acc.set i (injectChars chars (objAt acc i))) objs

/-- `protect` on an engine view: the decision, cache and trace are those of
`protect` on the observed rule list, and — unless the 10-rule check
returned early before the injection loop — the heap objects referenced by
the view are mutated by characteristic injection. -/
def protectStore (inp : ProtectInput) (s : EngineStore) (v : EngineView)
    (cache : Cache) : ProtectOutput × EngineStore :=
  (protect inp (viewRules s v) cache,
   if (viewRules s v).length > 10 then s
   else ⟨updateObjs inp.characteristics v.ids s.objs⟩)

/-- Mapping object lookup over an ordered insertion of ids coincides with
ordered insertion of the looked-up rule. -/
theorem map_orderedInsert (objs : List Rule) (a : Nat) (l : List Nat) :
    (List.orderedInsert (idLE objs) a l).map (objAt objs) =
      List.orderedInsert ruleLE (objAt objs a) (l.map (objAt objs)) := by
  induction l with
  | nil => rfl
  | cons b t ih =>
    by_cases h : ruleLE (objAt objs a) (objAt objs b)
    · simp [List.orderedInsert, h, idLE]
    · simp [List.orderedInsert, h, idLE, ih]

/-- Sorting references and then dereferencing is dereferencing and then
sorting: the stable sorts agree. -/
theorem map_sortIds (objs : List Rule) (ids : List Nat) :
    (sortIds objs ids).map (objAt objs) = sortRules (ids.map (objAt objs)) := by
  induction ids with
  | nil => rfl
  | cons i t ih =>
    simp only [sortIds, sortRules, List.insertionSort, List.map_cons]
    rw [← sortRules, ← sortIds, map_orderedInsert, ih, sortRules]

/-- Dereferencing the fresh ids of appended objects yields those objects. -/
theorem map_objAt_range' (pre xs : List Rule) :
    (List.range' pre.length xs.length).map (objAt (pre ++ xs)) = xs := by
  induction xs generalizing pre with
  | nil => rfl
  | cons x t ih =>
    rw [List.length_cons, List.range'_succ, List.map_cons]
    have h0 : objAt (pre ++ x :: t) pre.length = x := by
      unfold objAt
      rw [List.getD_append_right pre (x :: t) defaultRule pre.length le_rfl]
      simp
    rw [h0]
    have h1 : pre ++ x :: t = (pre ++ [x]) ++ t := by
      rw [List.append_cons]
    have h2 : pre.length + 1 = (pre ++ [x]).length := by simp
    rw [h1, h2, ih (pre ++ [x])]

/-- Element-wise effect of `List.set` on `getD`: the slot is unchanged, or
it is the written index and holds the written value. -/
theorem getD_set_or {α : Type} (l : List α) (i j : Nat) (a d : α) :
    (l.set i a).getD j d = l.getD j d ∨
    (i = j ∧ (l.set i a).getD j d = a) := by
  induction l generalizing i j with
  | nil => left; rfl
  | cons x t ih =>
    cases i with
    | zero =>
      cases j with
      | zero => right; exact ⟨rfl, rfl⟩
      | succ j => left; rfl
    | succ i =>
      cases j with
      | zero => left; rfl
      | succ j =>
        rcases ih i j with h | ⟨hij, h⟩
        · left
          simpa [List.set_cons_succ, List.getD_cons_succ] using h
        · right
          exact ⟨by omega, by simpa [List.set_cons_succ, List.getD_cons_succ] using h⟩

/-- Characteristic injection is idempotent. -/
theorem injectChars_idem (chars : List String) (r : Rule) :
    injectChars chars (injectChars chars r) = injectChars chars r := by
  unfold injectChars
  split
  · simp
  · rfl

/-- The injection loop changes each heap slot at most by injecting the
engine characteristics into the rule it holds. -/
theorem updateObjs_getD (chars : List String) (ids : List Nat)
    (objs : List Rule) (j : Nat) :
    objAt (updateObjs chars ids objs) j = objAt objs j ∨
    objAt (updateObjs chars ids objs) j =
      injectChars chars (objAt objs j) := by
  induction ids generalizing objs with
  | nil => left; rfl
  | cons i rest ih =>
    have step : updateObjs chars (i :: rest) objs =
        updateObjs chars rest (objs.set i (injectChars chars (objAt objs i))) :=
      rfl
    rw [step]
    rcases getD_set_or objs i j (injectChars chars (objAt objs i)) defaultRule
      with h2 | ⟨hij, h2⟩
    · have h2a : objAt (objs.set i (injectChars chars (objAt objs i))) j =
          objAt objs j := h2
      rcases ih (objs.set i (injectChars chars (objAt objs i))) with h | h
      · left; rw [h, h2a]
      · right; rw [h, h2a]
    · subst hij
      have h2a : objAt (objs.set i (injectChars chars (objAt objs i))) i =
          injectChars chars (objAt objs i) := h2
      rcases ih (objs.set i (injectChars chars (objAt objs i))) with h | h
      · right; rw [h, h2a]
      · right; rw [h, h2a, injectChars_idem]

/-- Claim C8 (amended): `withRule` builds a view whose rule list is the
parent's list concatenated with the new rules and re-sorted by the stable
priority sort, and the `withRule` call itself leaves every existing rule
object unchanged.  The parent and the derived engine however share the
rule objects, and a `protect` call on the derived engine mutates shared
heap slots in place: each slot is afterwards either unchanged or equal to
the injection of the engine characteristics into the rule it held, which
is observable through the parent's references. -/
theorem withRule_spec_amended (s : EngineStore) (parent : EngineView)
    (newRules : List Rule) (inp : ProtectInput) (cache : Cache)
    (hin : ∀ i ∈ parent.ids, i < s.objs.length) :
    viewRules (withRuleStore s parent newRules).1
        (withRuleStore s parent newRules).2 =
      sortRules (viewRules s parent ++ newRules) ∧
    (∀ i ∈ parent.ids,
      objAt (withRuleStore s parent newRules).1.objs i = objAt s.objs i) ∧
    (∀ j,
      objAt (protectStore inp (withRuleStore s parent newRules).1
          (withRuleStore s parent newRules).2 cache).2.objs j =
        objAt (withRuleStore s parent newRules).1.objs j ∨
      objAt (protectStore inp (withRuleStore s parent newRules).1
          (withRuleStore s parent newRules).2 cache).2.objs j =
        injectChars inp.characteristics
          (objAt (withRuleStore s parent newRules).1.objs j)) := by
  have hpar : ∀ i ∈ parent.ids,
      objAt (s.objs ++ newRules) i = objAt s.objs i := by
    intro i hi
    exact List.getD_append s.objs newRules defaultRule i (hin i hi)
  refine ⟨?_, hpar, ?_⟩
  · show (sortIds (s.objs ++ newRules)
        (parent.ids ++ List.range' s.objs.length newRules.length)).map
        (objAt (s.objs ++ newRules)) = _
    rw [map_sortIds, List.map_append, map_objAt_range' s.objs newRules,
      List.map_congr_left hpar]
    rfl
  · intro j
    show objAt (protectStore inp ⟨s.objs ++ newRules⟩ _ cache).2.objs j = _ ∨
      objAt (protectStore inp ⟨s.objs ++ newRules⟩ _ cache).2.objs j = _
    unfold protectStore
    by_cases hlen : (viewRules ⟨s.objs ++ newRules⟩
        (withRuleStore s parent newRules).2).length > 10
    · left
      simp only [hlen, if_true]
      rfl
    · simp only [hlen, if_false]
      exact updateObjs_getD inp.characteristics _ (s.objs ++ newRules) j

/-- Rate-limit rule without its own characteristics (remote-only). -/
def rlNoChars : Rule :=
  { type := "RATE_LIMIT", priority := 3, mode := .DRY_RUN, isRateLimit := true,
    characteristics := none, eval := .notLocal }

/-- Request input with a non-empty engine characteristics list. -/
def inpC8 : ProtectInput :=
  { characteristics := ["userId"], fingerprint := "fp", now := 100,
    decide := .ok allowDecision }

/-- Heap holding one rate-limit rule object, referenced by the parent. -/
def storeC8 : EngineStore := ⟨[rlNoChars]⟩

/-- Parent engine view over the single rule object. -/
def parentC8 : EngineView := ⟨[0]⟩

/-- Claim C8, counterexample: the parent's rate-limit rule object has no
characteristics; after `withRule` adds a shield rule and `protect` runs on
the derived engine, the shared object's `characteristics` field has been
set to the engine characteristics — the parent's rule object observably
changed, refuting that the original engine is unaffected by a `protect`
call on the derived engine. -/
theorem withRule_protect_mutates_shared_rule :
    (objAt storeC8.objs 0).characteristics = none ∧
    (objAt (protectStore inpC8 (withRuleStore storeC8 parentC8 [shieldRuleC]).1
        (withRuleStore storeC8 parentC8 [shieldRuleC]).2 cache0).2.objs
      0).characteristics = some ["userId"] := by decide

/-- Claim C8 witness: the amended specification applied to the concrete
parent engine, showing the derived view is the stable sort of the
concatenation. -/
theorem withRule_spec_amended_witness :
    viewRules (withRuleStore storeC8 parentC8 [shieldRuleC]).1
        (withRuleStore storeC8 parentC8 [shieldRuleC]).2 =
      sortRules (viewRules storeC8 parentC8 ++ [shieldRuleC]) :=
  (withRule_spec_amended storeC8 parentC8 [shieldRuleC] inpC8 cache0
    (by decide)).1

/-- Option object accepted by the `sensitiveInfo` constructor: the raw
`mode` value, the mutually exclusive `allow`/`deny` entity lists, and the
optional `contextWindowSize`. -/
structure SensitiveInfoOpts where
  mode : Option String
  allow : Option (List String)
  deny : Option (List String)
  contextWindowSize : Option Nat
deriving DecidableEq

/-- Mode normalization of the constructors: exactly the literal `"LIVE"`
gives LIVE, anything else (missing included) gives DRY_RUN. -/
def jsModeOf (m : Option String) : Mode :=
  if m = some "LIVE" then .LIVE else .DRY_RUN

/-- JS `x || 1` on an optional number: absent and 0 are falsy and give 1. -/
def jsOrOne (o : Option Nat) : Nat :=
  match o with
  | none => 1
  | some n => if n = 0 then 1 else n

/-- Sensitive-info rule as constructed: its declared fields plus the
context window size its `protect` closure passes to
`analyze.detectSensitiveInfo`. -/
structure SensitiveInfoRule where
  type : String
  priority : Int
  mode : Mode
  allow : List String
  deny : List String
  contextWindowUsed : Nat
deriving DecidableEq

/-- Build one sensitive-info rule from one option object `opt` of a
`sensitiveInfo(options, ...additionalOptions)` call.  Providing both
`allow` and `deny` throws.  The `protect` closure reads
`options.contextWindowSize || 1` — the FIRST parameter `options`, not the
option object `opt` the rule was built from (source line 695). -/
def buildSensitiveInfoRule (options opt : SensitiveInfoOpts) :
    Except String SensitiveInfoRule :=
  if opt.allow ≠ none ∧ opt.deny ≠ none then
    .error "Both allow and deny cannot be provided to sensitiveInfo"
  else
    .ok { type := "SENSITIVE_INFO", priority := 1, mode := jsModeOf opt.mode,
          allow := opt.allow.getD [], deny := opt.deny.getD [],
          contextWindowUsed := jsOrOne options.contextWindowSize }

/-- Loop of the `sensitiveInfo` constructor over its option objects. -/
def sensitiveInfoRules (options : SensitiveInfoOpts) :
    List SensitiveInfoOpts → Except String (List SensitiveInfoRule)
  | [] => .ok []
  | opt :: rest =>
      match buildSensitiveInfoRule options opt with
      | .error e => .error e
      | .ok r =>
          match sensitiveInfoRules options rest with
          | .error e => .error e
          | .ok rs => .ok (r :: rs)

/-- The `sensitiveInfo` constructor: one rule per option object, first
option object required. -/
def sensitiveInfo (options : SensitiveInfoOpts)
    (additionalOptions : List SensitiveInfoOpts) :
    Except String (List SensitiveInfoRule) :=
  sensitiveInfoRules options (options :: additionalOptions)

theorem sensitiveInfoRules_window (options : SensitiveInfoOpts)
    (l : List SensitiveInfoOpts) (rules : List SensitiveInfoRule)
    (hok : sensitiveInfoRules options l = .ok rules) :
    rules.map SensitiveInfoRule.contextWindowUsed =
      List.replicate rules.length (jsOrOne options.contextWindowSize) := by
  induction l generalizing rules with
  | nil =>
    simp only [sensitiveInfoRules] at hok
    cases hok
    rfl
  | cons opt rest ih =>
    simp only [sensitiveInfoRules] at hok
    cases hb : buildSensitiveInfoRule options opt with
    | error e => rw [hb] at hok; cases hok
    | ok r =>
      rw [hb] at hok
      cases hr : sensitiveInfoRules options rest with
      | error e => rw [hr] at hok; cases hok
      | ok rs =>
        rw [hr] at hok
        cases hok
        have hw : r.contextWindowUsed = jsOrOne options.contextWindowSize := by
          unfold buildSensitiveInfoRule at hb
          split at hb
          · cases hb
          · cases hb; rfl
        rw [List.map_cons, List.length_cons, List.replicate_succ, hw, ih rs hr]

/-- Claim C10: when `sensitiveInfo` is called with two or more option
objects, every produced rule passes the first option object's
`contextWindowSize` to the analyzer (with the JS falsy default of 1),
regardless of the `contextWindowSize` in the option object the rule was
built from: every rule uses the same window, the first option's. -/
theorem sensitiveInfo_uses_first_context_window (options : SensitiveInfoOpts)
    (addl : List SensitiveInfoOpts) (rules : List SensitiveInfoRule)
    (_hmany : addl ≠ [])
    (hok : sensitiveInfo options addl = .ok rules) :
    rules.map SensitiveInfoRule.contextWindowUsed =
      List.replicate rules.length (jsOrOne options.contextWindowSize) ∧
    (options.contextWindowSize = none →
      jsOrOne options.contextWindowSize = 1) ∧
    (∀ n, options.contextWindowSize = some n → n ≠ 0 →
      jsOrOne options.contextWindowSize = n) := by
  refine ⟨sensitiveInfoRules_window options (options :: addl) rules hok,
    fun h => by simp [jsOrOne, h], fun n h hn => by simp [jsOrOne, h, hn]⟩

/-- First option object of the concrete scenario: deny list, window 5. -/
def siOpt1 : SensitiveInfoOpts :=
  { mode := some "LIVE", allow := none, deny := some ["EMAIL"],
    contextWindowSize := some 5 }

/-- Second option object: its own window is 9, which the produced rule
ignores. -/
def siOpt2 : SensitiveInfoOpts :=
  { mode := none, allow := none, deny := some ["PHONE_NUMBER"],
    contextWindowSize := some 9 }

/-- Claim C10 witness: both rules of a two-option call use window 5, the
first option's value — the second rule ignores its own 9. -/
theorem sensitiveInfo_uses_first_context_window_witness :
    ((sensitiveInfo siOpt1 [siOpt2]).toOption.getD []).map
        SensitiveInfoRule.contextWindowUsed = [5, 5] := by
  have h := (sensitiveInfo_uses_first_context_window siOpt1 [siOpt2]
    ((sensitiveInfo siOpt1 [siOpt2]).toOption.getD [])
    (by decide) rfl).1
  exact h.trans (by decide)

end Arcjet
